import Mathlib

/-!
Verification of the session/progression core of the train-game backend.

The Python sources under app/ are shallowly embedded: Python str values are
lists of characters, datetime values are natural-number timestamps (seconds),
the process-wide session dictionary is a map from ids to sessions, and every
service method becomes a pure function that takes and returns that map
explicitly.  The data model follows app/models/session.py; where the model
file and app/services/session_service.py disagree on the session shape
(the model file still declares the historical flat dict of wagons while the
service reads and writes a single current_wagon and a guessing_progress),
the development follows the single-current-wagon shape that the service
code itself dereferences, as the design notes prescribe.
-/

namespace TrainBackend

/-- Python str modelled as a list of characters. -/
abbrev Str := List Char

/-- Message model from app/models/session.py: role, content and a creation
timestamp (datetime.utcnow at construction, modelled as a Nat second count). -/
structure Message where
  role : Str
  content : Str
  timestamp : Nat
deriving DecidableEq

/-- Conversation model from app/models/session.py: an NPC identity, the
ordered message list and the time of the last interaction. -/
structure Conversation where
  uid : Str
  messages : List Message := []
  last_interaction : Nat
deriving DecidableEq

/-- Modelled from the spec: GuessingProgress is named by the service imports
but is missing from app/models/session.py (merge drift).  Per the data model
section it holds the ordered prior indications and prior guesses; the service
appends Message values to indications and plain strings to guesses. -/
structure GuessingProgress where
  indications : List Message := []
  guesses : List Str := []
deriving DecidableEq

/-- WagonProgress model from app/models/session.py: wagon index, the lazy
conversation table, completion flags and an optional passcode (default None).
Note the declared model has no theme field.  The conversation dict is
modelled as a total function to Option. -/
structure WagonProgress where
  wagon_id : Nat
  conversations : Str → Option Conversation := fun _ => none
  completed : Bool := false
  unlocked : Bool := false
  passcode : Option Str := none

/-- Modelled from the spec: the session shape the service code dereferences
(session_id, a single current WagonProgress, a GuessingProgress and the two
timestamps); app/models/session.py still declares the historical flat-dict
shape, which the design notes direct us to disregard.  The extra field
current_guesses mirrors the attribute that advance_wagon assigns and that no
other code ever reads. -/
structure UserSession where
  session_id : Str
  current_wagon : WagonProgress := { wagon_id := 0 }
  guessing_progress : GuessingProgress := {}
  current_guesses : GuessingProgress := {}
  created_at : Nat
  last_active : Nat

/-- One entry of the wagon dataset (app/models/train.py): index, theme and
the secret passcode.  The NPC roster is never read by the session core and
is omitted. -/
structure Wagon where
  id : Int
  theme : Str
  passcode : Str
deriving DecidableEq

/-- The process-wide dictionary SessionService._sessions, keyed by session id. -/
abbrev Registry := Str → Option UserSession

/-- Python uid.split(sep) for a one-character separator: splits at every
occurrence, keeping empty segments, and yields one (possibly empty) segment
even for the empty string. -/
def pySplit (sep : Char) : Str → List Str
  | [] => [[]]
  | c :: rest =>
    match pySplit sep rest with
    | [] => [[]]
    | h :: t => if c = sep then [] :: h :: t else (c :: h) :: t

/-- Value of a digit string, most significant digit first, exactly as the
int() conversion accumulates it. -/
def decimalVal (s : Str) : Nat :=
  s.foldl (fun a c => 10 * a + (c.toNat - 48)) 0

/-- Python int() restricted to an unsigned run of ASCII digits: some value
when the string is nonempty and all digits, none for the ValueError. -/
def pyIntDigits (s : Str) : Option Nat :=
  if s ≠ [] ∧ ∀ c ∈ s, c.isDigit then some (decimalVal s) else none

/-- Python int() on a decimal string with an optional single sign.  The
conversion also tolerates surrounding whitespace and inner underscores,
which no identity handled in this development contains, so that fringe is
not modelled. -/
def pyInt (s : Str) : Option Int :=
  match s with
  | [] => none
  | c :: rest =>
    if c = '-' then (pyIntDigits rest).map (fun v => -(v : Int))
    else if c = '+' then (pyIntDigits rest).map (fun v => (v : Int))
    else (pyIntDigits (c :: rest)).map (fun v => (v : Int))

/-- Translation of int(uid.split("-")[1]): none models the uncaught
IndexError (fewer than two segments) or ValueError (segment not numeric). -/
def parseWagonIdx (uid : Str) : Option Int :=
  match (pySplit '-' uid).get? 1 with
  | none => none
  | some seg => pyInt seg

/-- The single exception kind the session service can let escape: the
IndexError or ValueError raised while parsing the wagon index out of a uid. -/
inductive PyErr where
  | valueOrIndexError
deriving DecidableEq

/-- SessionService.create_session: mint a session with wagon 0 and empty
progress and store it.  The uuid mint is external randomness, passed in as
sid; now stands for datetime.utcnow(). -/
def create_session (reg : Registry) (sid : Str) (now : Nat) : UserSession × Registry :=
  let s : UserSession := { session_id := sid, created_at := now, last_active := now }
  (s, fun k => if k = sid then some s else reg k)

/-- SessionService.get_session: a plain dictionary lookup.  It takes no
clock and writes nothing. -/
def get_session (reg : Registry) (sid : Str) : Option UserSession :=
  reg sid

/-- SessionService.update_session: bump last_active to now and store the
session under its own session_id. -/
def update_session (reg : Registry) (s : UserSession) (now : Nat) : Registry :=
  let s' := { s with last_active := now }
  fun k => if k = s'.session_id then some s' else reg k

/-- SessionService.add_message.  Returns the Python result (None, a
Conversation, or a propagated parse exception) together with the registry
after the call. -/
def add_message (reg : Registry) (sid uid : Str) (msg : Message) (now : Nat) :
    Except PyErr (Option Conversation) × Registry :=
  match reg sid with
  | none => (.ok none, reg)
  | some session =>
    match parseWagonIdx uid with
    | none => (.error .valueOrIndexError, reg)
    | some w =>
      if w = (session.current_wagon.wagon_id : Int) then
        let conv0 := match session.current_wagon.conversations uid with
          | some c => c
          | none => { uid := uid, messages := [], last_interaction := now }
        let conv := { conv0 with messages := conv0.messages ++ [msg], last_interaction := now }
        let wagon := { session.current_wagon with
          conversations := fun k => if k = uid then some conv else session.current_wagon.conversations k }
        let s' := { session with current_wagon := wagon }
        (.ok (some conv), update_session reg s' now)
      else
        (.ok none, reg)

/-- SessionService.get_conversation: same session lookup and wagon check as
add_message, then a plain dictionary read; never writes. -/
def get_conversation (reg : Registry) (sid uid : Str) :
    Except PyErr (Option Conversation) :=
  match reg sid with
  | none => .ok none
  | some session =>
    match parseWagonIdx uid with
    | none => .error .valueOrIndexError
    | some w =>
      if w = (session.current_wagon.wagon_id : Int) then
        .ok (session.current_wagon.conversations uid)
      else
        .ok none

/-- SessionService.update_guessing_progress (the merged variant that also
mirrors the indication and first thought into the main-character
conversation).  Python indexes thought[0]; callers in this development pass
nonempty lists, modelled by headD. -/
def update_guessing_progress (reg : Registry) (sid : Str) (indication guessText : Str)
    (thought : List Str) (now : Nat) : Registry :=
  match reg sid with
  | none => reg
  | some session =>
    let gp := { session.guessing_progress with
      guesses := session.guessing_progress.guesses ++ [guessText],
      indications := session.guessing_progress.indications ++
        [{ role := "user".data, content := indication, timestamp := now }] }
    let mc : Str := "main-character".data
    let conv0 := match session.current_wagon.conversations mc with
      | some c => c
      | none => { uid := mc, messages := [], last_interaction := now }
    let conv := { conv0 with messages := conv0.messages ++
      [{ role := "user".data, content := indication, timestamp := now },
       { role := "assistant".data, content := thought.headD [], timestamp := now }] }
    let wagon := { session.current_wagon with
      conversations := fun k => if k = mc then some conv else session.current_wagon.conversations k }
    let s' := { session with guessing_progress := gp, current_wagon := wagon }
    update_session reg s' now

/-- SessionService.advance_wagon.  wagonsData models the attempt to read
data/wagons.json: none is a load failure.  On success the current wagon is
replaced by WagonProgress(wagon_id=next) with every other field at its
default, and the assignment to the current_guesses attribute is recorded;
guessing_progress itself is not touched. -/
def advance_wagon (reg : Registry) (sid : Str) (wagonsData : Option (List Wagon))
    (now : Nat) : Bool × Registry :=
  match reg sid with
  | none => (false, reg)
  | some session =>
    match wagonsData with
    | none => (false, reg)
    | some ws =>
      let max_wagon_id : Int := (ws.length : Int) - 1
      let next_wagon_id : Nat := session.current_wagon.wagon_id + 1
      if (next_wagon_id : Int) > max_wagon_id then (false, reg)
      else
        let s' := { session with
          current_wagon := { wagon_id := next_wagon_id },
          current_guesses := {} }
        (true, update_session reg s' now)

/-- SessionService.cleanup_old_sessions: drop every session whose age in
hours strictly exceeds max_age_hours.  The Python age test
(now - last_active).total_seconds() / 3600 > max_age_hours is equivalent,
over whole seconds, to now - last_active > 3600 * max_age_hours. -/
def cleanup_old_sessions (reg : Registry) (now : Nat) (max_age_hours : Nat) : Registry :=
  fun sid =>
    match reg sid with
    | none => none
    | some s => if 3600 * max_age_hours < now - s.last_active then none else some s

/-- SessionService.terminate_session: delete when present, no-op otherwise. -/
def terminate_session (reg : Registry) (sid : Str) : Registry :=
  match reg sid with
  | none => reg
  | some _ => fun k => if k = sid then none else reg k

/-- Body of Python str.replace for a nonempty pattern: scan left to right,
replace each non-overlapping occurrence of p by m.  At a match on c :: rest
the scan consumes p.length characters, continuing on rest with p.length - 1
more dropped. -/
def replaceAux (p m : Str) : Str → Str
  | [] => []
  | c :: rest =>
    if p.isPrefixOf (c :: rest) then
      m ++ replaceAux p m (rest.drop (p.length - 1))
    else
      c :: replaceAux p m rest
termination_by l => l.length
decreasing_by
  · simp [List.length_drop]
    omega
  · simp

/-- Python str.replace with the empty pattern inserts the replacement at
every character boundary. -/
def replaceEmptyPat (m : Str) : Str → Str
  | [] => m
  | c :: rest => m ++ c :: replaceEmptyPat m rest

/-- Python s.replace(old, new): every non-overlapping occurrence of old in s
is replaced by new. -/
def pyReplace (s old new : Str) : Str :=
  if old = [] then replaceEmptyPat new s else replaceAux old new s

/-- The seven-asterisk replacement literal of GuessingService.filter_password. -/
def maskStr : Str := "*******".data

/-- GuessingService.filter_password: indication.replace(password, mask). -/
def filter_password (indication password : Str) : Str :=
  pyReplace indication password maskStr

/-- The payload GuessingService.generate hands to the LLM chain: the
collaborator-facing inputs, which is where the claims about bounded context
and passcode filtering live.  The chain invocation itself is the external
collaborator. -/
structure GuessGenInputs where
  previous_guesses : List Str
  theme : Str
  previous_indications : List Str
  current_indication : Str
deriving DecidableEq

/-- GuessingService.generate up to the chain call: map the indications to
their contents, filter the password out of the current indication, and pass
previous_guesses[:3] and previous_indications[:5]. -/
def generateInputs (previous_guesses : List Str) (theme : Str)
    (previous_indications : List Message) (current_indication password : Str) :
    GuessGenInputs :=
  let prevContents := previous_indications.map (fun msg => msg.content)
  let filtered := filter_password current_indication password
  { previous_guesses := previous_guesses.take 3
    theme := theme
    previous_indications := prevContents.take 5
    current_indication := filtered }

/-- Outcome of the uid validation at the top of the chat_with_character
route: a 400 Invalid UID format, a 400 wrong-wagon rejection, or fall
through to the service call. -/
inductive ChatGate where
  | invalidUid
  | wrongWagonHTTP
  | proceed
deriving DecidableEq

/-- The try/except prelude of routes/chat.py chat_with_character: parse the
wagon index inside a try block that turns IndexError and ValueError into a
typed 400, and reject a mismatched wagon before any service mutation. -/
def chatPrelude (uid : Str) (currentWagonId : Nat) : ChatGate :=
  match parseWagonIdx uid with
  | none => .invalidUid
  | some w => if w = (currentWagonId : Int) then .proceed else .wrongWagonHTTP

/-- Spec-words variant of get for comparison: the specification text says a
successful lookup touches last_active as a side effect; this definition
performs that touch so the implemented get_session can be measured against
it. -/
def get_session_touch_spec (reg : Registry) (sid : Str) (now : Nat) :
    Option UserSession × Registry :=
  match reg sid with
  | none => (none, reg)
  | some s =>
    let s' := { s with last_active := now }
    (some s', fun k => if k = sid then some s' else reg k)

/-- Iterated advance_wagon through the service, one clock reading per
attempt; the boolean records whether every attempt reported success. -/
def advanceRun (wagonsData : Option (List Wagon)) (sid : Str) :
    List Nat → Registry → Bool × Registry
  | [], reg => (true, reg)
  | now :: rest, reg =>
    let step := advance_wagon reg sid wagonsData now
    let tail := advanceRun wagonsData sid rest step.2
    (step.1 && tail.1, tail.2)

/-- One recorded guessing turn as the guess route persists it. -/
structure RecordedGuess where
  indication : Str
  guessText : Str
  thought : Str
  now : Nat

/-- Iterated update_guessing_progress over a chronological list of turns. -/
def recordRun (sid : Str) : List RecordedGuess → Registry → Registry
  | [], reg => reg
  | e :: rest, reg =>
    recordRun sid rest (update_guessing_progress reg sid e.indication e.guessText [e.thought] e.now)

/-- Decimal character form of a natural number, most significant digit
first: the shape in which a client writes the indices of an NPC identity. -/
def natChars (n : Nat) : Str :=
  if n < 10 then [Nat.digitChar n]
  else natChars (n / 10) ++ [Nat.digitChar (n % 10)]
decreasing_by exact Nat.div_lt_self (by omega) (by omega)

/-- The canonical NPC identity wagon-i-player-k with decimal indices. -/
def wagonUid (i k : Nat) : Str :=
  "wagon".data ++ '-' :: (natChars i ++ '-' :: ("player".data ++ '-' :: natChars k))

lemma digitChar_val_of_lt (d : Nat) (hd : d < 10) : (Nat.digitChar d).toNat - 48 = d := by
  interval_cases d <;> decide

lemma digitChar_isDigit_of_lt (d : Nat) (hd : d < 10) : (Nat.digitChar d).isDigit = true := by
  interval_cases d <;> decide

lemma decimalVal_append_digit (a : Str) (c : Char) :
    decimalVal (a ++ [c]) = 10 * decimalVal a + (c.toNat - 48) := by
  simp [decimalVal, List.foldl_append]

lemma decimalVal_natChars (n : Nat) : decimalVal (natChars n) = n := by
  induction n using Nat.strong_induction_on with
  | _ n ih =>
    rw [natChars]
    by_cases h : n < 10
    · rw [if_pos h]
      show 10 * 0 + ((Nat.digitChar n).toNat - 48) = n
      rw [digitChar_val_of_lt n h]
      omega
    · rw [if_neg h, decimalVal_append_digit, ih (n / 10) (Nat.div_lt_self (by omega) (by omega)),
        digitChar_val_of_lt (n % 10) (Nat.mod_lt n (by omega))]
      omega

lemma natChars_all_digit (n : Nat) : ∀ c ∈ natChars n, c.isDigit = true := by
  induction n using Nat.strong_induction_on with
  | _ n ih =>
    rw [natChars]
    by_cases h : n < 10
    · rw [if_pos h]
      intro c hc
      rw [List.mem_singleton] at hc
      exact hc ▸ digitChar_isDigit_of_lt n h
    · rw [if_neg h]
      intro c hc
      rcases List.mem_append.mp hc with hc | hc
      · exact ih (n / 10) (Nat.div_lt_self (by omega) (by omega)) c hc
      · rw [List.mem_singleton] at hc
        exact hc ▸ digitChar_isDigit_of_lt (n % 10) (Nat.mod_lt n (by omega))

lemma natChars_ne_nil (n : Nat) : natChars n ≠ [] := by
  rw [natChars]
  by_cases h : n < 10
  · rw [if_pos h]; simp
  · rw [if_neg h]; simp

lemma ne_dash_of_isDigit (c : Char) (h : c.isDigit = true) : c ≠ '-' := by
  rintro rfl
  exact absurd h (by decide)

lemma ne_plus_of_isDigit (c : Char) (h : c.isDigit = true) : c ≠ '+' := by
  rintro rfl
  exact absurd h (by decide)

lemma dash_not_mem_natChars (n : Nat) : '-' ∉ natChars n := by
  intro h
  exact ne_dash_of_isDigit '-' (natChars_all_digit n '-' h) rfl

lemma pySplit_ne_nil (sep : Char) (l : Str) : pySplit sep l ≠ [] := by
  cases l with
  | nil => simp [pySplit]
  | cons c rest =>
    rw [pySplit]
    cases h : pySplit sep rest with
    | nil => simp
    | cons a t =>
      by_cases hc : c = sep <;> simp [hc]

lemma pySplit_sep_head (sep : Char) (b : Str) :
    pySplit sep (sep :: b) = [] :: pySplit sep b := by
  rw [pySplit]
  cases h : pySplit sep b with
  | nil => exact absurd h (pySplit_ne_nil sep b)
  | cons a t => simp

lemma pySplit_cons_ne (sep c : Char) (b : Str) (hc : c ≠ sep) :
    pySplit sep (c :: b) =
      (c :: (pySplit sep b).headD []) :: (pySplit sep b).tail := by
  rw [pySplit]
  cases h : pySplit sep b with
  | nil => exact absurd h (pySplit_ne_nil sep b)
  | cons a t => simp [hc]

lemma pySplit_append (sep : Char) (a b : Str) (ha : sep ∉ a) :
    pySplit sep (a ++ sep :: b) = a :: pySplit sep b := by
  induction a with
  | nil =>
    simpa using pySplit_sep_head sep b
  | cons x a' ih =>
    have hx : x ≠ sep := fun h => ha (h ▸ List.mem_cons_self x a')
    have ha' : sep ∉ a' := fun h => ha (List.mem_cons_of_mem x h)
    rw [List.cons_append, pySplit_cons_ne sep x (a' ++ sep :: b) hx, ih ha']
    simp

lemma pyIntDigits_natChars (n : Nat) : pyIntDigits (natChars n) = some n := by
  rw [pyIntDigits, if_pos ⟨natChars_ne_nil n, natChars_all_digit n⟩, decimalVal_natChars]

lemma pyInt_natChars (n : Nat) : pyInt (natChars n) = some (n : Int) := by
  obtain ⟨c, rest, hcr⟩ := List.exists_cons_of_ne_nil (natChars_ne_nil n)
  have hdig : c.isDigit = true := natChars_all_digit n c (hcr ▸ List.mem_cons_self c rest)
  rw [hcr, pyInt, if_neg (ne_dash_of_isDigit c hdig), if_neg (ne_plus_of_isDigit c hdig),
    ← hcr, pyIntDigits_natChars]
  rfl

lemma parseWagonIdx_wagonUid (i k : Nat) : parseWagonIdx (wagonUid i k) = some (i : Int) := by
  rw [parseWagonIdx, wagonUid,
    pySplit_append '-' "wagon".data _ (by decide),
    pySplit_append '-' (natChars i) _ (dash_not_mem_natChars i)]
  exact pyInt_natChars i

/-- p occurs somewhere inside l as a contiguous substring. -/
def occursIn (p l : Str) : Prop :=
  ∃ i, p.isPrefixOf (l.drop i) = true

lemma drop_append_ge (u X : Str) (i : Nat) (h : u.length ≤ i) :
    (u ++ X).drop i = X.drop (i - u.length) := by
  induction u generalizing i with
  | nil => simp
  | cons c u' ih =>
    cases i with
    | zero => simp at h
    | succ j =>
      rw [List.cons_append, List.drop_succ_cons, ih j (by simpa using h)]
      simp

lemma drop_append_lt (u X : Str) (i : Nat) (h : i < u.length) :
    (u ++ X).drop i = u.drop i ++ X := by
  induction u generalizing i with
  | nil => simp at h
  | cons c u' ih =>
    cases i with
    | zero => simp
    | succ j =>
      rw [List.cons_append, List.drop_succ_cons, List.drop_succ_cons,
        ih j (by simpa using h)]

lemma not_prefix_star_append (q u X : Str) (hq : q ≠ []) (hstar : '*' ∉ q)
    (hu : u ≠ []) (hus : ∀ c ∈ u, c = '*') : ¬ q <+: (u ++ X) := by
  obtain ⟨d, u', rfl⟩ := List.exists_cons_of_ne_nil hu
  obtain ⟨c, q', rfl⟩ := List.exists_cons_of_ne_nil hq
  intro hpre
  rw [List.cons_append, List.cons_prefix_cons] at hpre
  apply hstar
  have hd : d = '*' := hus d (List.mem_cons_self d u')
  exact (hpre.1.trans hd) ▸ List.mem_cons_self c q'

lemma maskStr_all_star : ∀ c ∈ maskStr, c = '*' := by decide

lemma maskStr_ne_nil : maskStr ≠ [] := by decide

lemma occursIn_mask_append (q X : Str) (hq : q ≠ []) (hstar : '*' ∉ q)
    (h : occursIn q (maskStr ++ X)) : occursIn q X := by
  obtain ⟨i, hi⟩ := h
  rw [List.isPrefixOf_iff_prefix] at hi
  by_cases hlt : i < maskStr.length
  · rw [drop_append_lt maskStr X i hlt] at hi
    refine absurd hi (not_prefix_star_append q (maskStr.drop i) X hq hstar ?_ ?_)
    · intro hnil
      have := congrArg List.length hnil
      simp at this
      omega
    · intro c hc
      exact maskStr_all_star c (List.drop_subset i maskStr hc)
  · rw [drop_append_ge maskStr X i (by omega)] at hi
    exact ⟨i - maskStr.length, List.isPrefixOf_iff_prefix.mpr hi⟩

lemma prefix_replaceAux (p : Str) :
    ∀ (n : Nat) (t q : Str), q ≠ [] → '*' ∉ q → t.length ≤ n →
      q <+: replaceAux p maskStr t → q <+: t := by
  intro n
  induction n with
  | zero =>
    intro t q hq _ ht h
    match t with
    | [] =>
      rw [replaceAux] at h
      exact absurd (List.prefix_nil.mp h) hq
    | c :: rest => simp at ht
  | succ n ih =>
    intro t q hq hstar ht h
    match t with
    | [] =>
      rw [replaceAux] at h
      exact absurd (List.prefix_nil.mp h) hq
    | c :: rest =>
      rw [replaceAux] at h
      by_cases hpre : p.isPrefixOf (c :: rest) = true
      · rw [if_pos hpre] at h
        exact absurd h (not_prefix_star_append q maskStr _ hq hstar maskStr_ne_nil maskStr_all_star)
      · rw [if_neg hpre] at h
        obtain ⟨c0, q', rfl⟩ := List.exists_cons_of_ne_nil hq
        rw [List.cons_prefix_cons] at h
        obtain ⟨rfl, hq'⟩ := h
        by_cases hqe : q' = []
        · subst hqe
          simp
        · have hstar' : '*' ∉ q' := fun hx => hstar (List.mem_cons_of_mem c0 hx)
          have hlen : rest.length ≤ n := by
            simp at ht
            omega
          have hq'rest : q' <+: rest := ih rest q' hqe hstar' hlen hq'
          rw [List.cons_prefix_cons]
          exact ⟨rfl, hq'rest⟩

lemma replaceAux_no_occurrence (p : Str) (hp : p ≠ []) (hstar : '*' ∉ p) :
    ∀ (n : Nat) (s : Str), s.length ≤ n →
      ¬ occursIn p (replaceAux p maskStr s) := by
  intro n
  induction n with
  | zero =>
    intro s hs h
    match s with
    | [] =>
      obtain ⟨i, hi⟩ := h
      rw [replaceAux, List.drop_nil, List.isPrefixOf_iff_prefix] at hi
      exact hp (List.prefix_nil.mp hi)
    | c :: rest => simp at hs
  | succ n ih =>
    intro s hs h
    match s with
    | [] =>
      obtain ⟨i, hi⟩ := h
      rw [replaceAux, List.drop_nil, List.isPrefixOf_iff_prefix] at hi
      exact hp (List.prefix_nil.mp hi)
    | c :: rest =>
      rw [replaceAux] at h
      by_cases hpre : p.isPrefixOf (c :: rest) = true
      · rw [if_pos hpre] at h
        have hlen : (rest.drop (p.length - 1)).length ≤ n := by
          rw [List.length_drop]
          simp at hs
          omega
        exact ih (rest.drop (p.length - 1)) hlen (occursIn_mask_append p _ hp hstar h)
      · rw [if_neg hpre] at h
        obtain ⟨i, hi⟩ := h
        match i with
        | 0 =>
          rw [List.drop_zero, List.isPrefixOf_iff_prefix] at hi
          obtain ⟨c0, p', rfl⟩ := List.exists_cons_of_ne_nil hp
          rw [List.cons_prefix_cons] at hi
          obtain ⟨rfl, hp'⟩ := hi
          by_cases hpe : p' = []
          · subst hpe
            exact hpre (List.isPrefixOf_iff_prefix.mpr (by simp))
          · have hstar' : '*' ∉ p' := fun hx => hstar (List.mem_cons_of_mem c0 hx)
            have : p' <+: rest :=
              prefix_replaceAux (c0 :: p') rest.length rest p' hpe hstar' le_rfl hp'
            apply hpre
            rw [List.isPrefixOf_iff_prefix, List.cons_prefix_cons]
            exact ⟨rfl, this⟩
        | j + 1 =>
          rw [List.drop_succ_cons] at hi
          have hlen : rest.length ≤ n := by
            simp at hs
            omega
          exact ih rest hlen ⟨j, hi⟩

lemma update_session_self (reg : Registry) (s : UserSession) (now : Nat) :
    update_session reg s now s.session_id = some { s with last_active := now } := by
  simp [update_session]

lemma update_session_lookup (reg : Registry) (x : UserSession) (now : Nat) (sid : Str)
    (hx : x.session_id = sid) :
    update_session reg x now sid = some { x with last_active := now } := by
  simp [update_session, hx]

lemma advance_wagon_eq_of_some (reg : Registry) (sid : Str) (s : UserSession)
    (ws : List Wagon) (now : Nat) (h : reg sid = some s) :
    advance_wagon reg sid (some ws) now =
      if ((s.current_wagon.wagon_id + 1 : Nat) : Int) > (ws.length : Int) - 1 then
        (false, reg)
      else
        (true, update_session reg
          { s with current_wagon := { wagon_id := s.current_wagon.wagon_id + 1 },
                   current_guesses := {} } now) := by
  simp only [advance_wagon, h]

lemma advanceRun_spec (ws : List Wagon) (hws : ws ≠ []) (sid : Str) :
    ∀ (nows : List Nat) (reg : Registry) (s : UserSession),
      reg sid = some s → s.session_id = sid →
      s.current_wagon.wagon_id ≤ ws.length - 1 →
      (((advanceRun (some ws) sid nows reg).1 = true) ↔
          s.current_wagon.wagon_id + nows.length ≤ ws.length - 1) ∧
      ((advanceRun (some ws) sid nows reg).2 sid).map (fun x => x.current_wagon.wagon_id) =
        some (min (s.current_wagon.wagon_id + nows.length) (ws.length - 1)) := by
  have hlen : 1 ≤ ws.length := List.length_pos.mpr hws
  intro nows
  induction nows with
  | nil =>
    intro reg s h hid hle
    rw [advanceRun]
    refine ⟨iff_of_true rfl (by simpa using hle), ?_⟩
    dsimp only
    rw [h]
    simp only [Option.map_some', Option.some.injEq, List.length_nil, Nat.add_zero]
    omega
  | cons now rest ih =>
    intro reg s h hid hle
    rw [advanceRun, advance_wagon_eq_of_some reg sid s ws now h]
    by_cases hc : s.current_wagon.wagon_id + 1 ≤ ws.length - 1
    · have hcond : ¬ (((s.current_wagon.wagon_id + 1 : Nat) : Int) > (ws.length : Int) - 1) := by
        push_cast
        omega
      rw [if_neg hcond]
      have hlook : update_session reg
          { s with current_wagon := { wagon_id := s.current_wagon.wagon_id + 1 },
                   current_guesses := {} } now sid = some
          { s with current_wagon := { wagon_id := s.current_wagon.wagon_id + 1 },
                   current_guesses := {}, last_active := now } := by
        have := update_session_self reg
          { s with current_wagon := { wagon_id := s.current_wagon.wagon_id + 1 },
                   current_guesses := {} } now
        simpa [hid] using this
      obtain ⟨ih1, ih2⟩ := ih _ _ hlook (by simpa using hid) (by simpa using hc)
      refine ⟨?_, ?_⟩
      · simp only [Bool.true_and]
        rw [ih1]
        simp only [List.length_cons]
        omega
      · rw [ih2]
        simp only [Option.some.injEq, List.length_cons]
        omega
    · have hcond : (((s.current_wagon.wagon_id + 1 : Nat) : Int) > (ws.length : Int) - 1) := by
        push_cast
        omega
      rw [if_pos hcond]
      obtain ⟨ih1, ih2⟩ := ih reg s h hid hle
      refine ⟨?_, ?_⟩
      · simp only [Bool.false_and, List.length_cons]
        constructor
        · intro hfalse
          exact absurd hfalse (by simp)
        · intro habs
          omega
      · rw [ih2]
        simp only [Option.some.injEq, List.length_cons]
        omega

lemma update_guessing_progress_lookup (reg : Registry) (sid : Str) (s : UserSession)
    (ind gss : Str) (th : List Str) (now : Nat) (h : reg sid = some s)
    (hid : s.session_id = sid) :
    ∃ s', (update_guessing_progress reg sid ind gss th now) sid = some s' ∧
      s'.session_id = sid ∧
      s'.guessing_progress.guesses = s.guessing_progress.guesses ++ [gss] ∧
      s'.guessing_progress.indications.map (fun m => m.content) =
        s.guessing_progress.indications.map (fun m => m.content) ++ [ind] ∧
      s'.last_active = now := by
  simp only [update_guessing_progress, h]
  refine ⟨_, update_session_lookup reg _ now sid hid, hid, rfl, ?_, rfl⟩
  simp

lemma recordRun_spec (sid : Str) :
    ∀ (entries : List RecordedGuess) (reg : Registry) (s : UserSession),
      reg sid = some s → s.session_id = sid →
      ∃ s', (recordRun sid entries reg) sid = some s' ∧ s'.session_id = sid ∧
        s'.guessing_progress.guesses =
          s.guessing_progress.guesses ++ entries.map (fun e => e.guessText) ∧
        s'.guessing_progress.indications.map (fun m => m.content) =
          s.guessing_progress.indications.map (fun m => m.content) ++
            entries.map (fun e => e.indication) := by
  intro entries
  induction entries with
  | nil =>
    intro reg s h hid
    exact ⟨s, by simpa [recordRun] using h, hid, by simp, by simp⟩
  | cons e rest ih =>
    intro reg s h hid
    obtain ⟨s1, h1, hid1, hg1, hi1, _⟩ :=
      update_guessing_progress_lookup reg sid s e.indication e.guessText [e.thought] e.now h hid
    obtain ⟨s', h', hid', hg', hi'⟩ := ih _ s1 h1 hid1
    refine ⟨s', by simpa [recordRun] using h', hid', ?_, ?_⟩
    · rw [hg', hg1, List.map_cons]
      simp
    · rw [hi', hi1, List.map_cons]
      simp

/-- Concrete session id used by the closed evaluation theorems below. -/
def sidC : Str := "s1".data

/-- Concrete chat message fixture. -/
def msgC : Message := { role := "user".data, content := "hi".data, timestamp := 5 }

/-- Concrete two-entry wagon dataset fixture. -/
def wsC : List Wagon :=
  [{ id := 0, theme := "intro".data, passcode := "alpha".data },
   { id := 1, theme := "gold".data, passcode := "aurum".data }]

/-- Registry holding exactly one freshly created session. -/
def regFreshC : Registry := (create_session (fun _ => none) sidC 0).2

/-- The freshly created session stored in regFreshC. -/
def sFreshC : UserSession := (create_session (fun _ => none) sidC 0).1

/-- C1: from fresh creation every advance attempt moves the current wagon id
along min(N, max_wagon_index) where max_wagon_index is one less than the
dataset length: a run of N attempts ends at that minimum and is
all-successful exactly when N stays within the bound, and an advance issued
at the terminal wagon reports failure and returns the registry unchanged. -/
theorem advance_progression (reg0 : Registry) (sid : Str) (t0 : Nat)
    (ws : List Wagon) (hws : ws ≠ []) (nows : List Nat) :
    (((advanceRun (some ws) sid nows (create_session reg0 sid t0).2).1 = true) ↔
        nows.length ≤ ws.length - 1) ∧
    ((advanceRun (some ws) sid nows (create_session reg0 sid t0).2).2 sid).map
        (fun s => s.current_wagon.wagon_id) = some (min nows.length (ws.length - 1)) ∧
    (∀ (reg : Registry) (s : UserSession) (now : Nat), reg sid = some s →
      s.current_wagon.wagon_id = ws.length - 1 →
      advance_wagon reg sid (some ws) now = (false, reg)) := by
  have hcreate : (create_session reg0 sid t0).2 sid = some (create_session reg0 sid t0).1 := by
    simp [create_session]
  have h0 : (create_session reg0 sid t0).1.current_wagon.wagon_id = 0 := rfl
  obtain ⟨h1, h2⟩ := advanceRun_spec ws hws sid nows _ _ hcreate rfl (by rw [h0]; omega)
  rw [h0] at h1 h2
  refine ⟨by simpa using h1, by simpa using h2, ?_⟩
  intro reg s now h hterm
  have hlen : 1 ≤ ws.length := List.length_pos.mpr hws
  have hcond : (((s.current_wagon.wagon_id + 1 : Nat) : Int) > (ws.length : Int) - 1) := by
    rw [hterm]
    omega
  rw [advance_wagon_eq_of_some reg sid s ws now h, if_pos hcond]

/-- Witness for C1 at a two-wagon dataset and two advance attempts. -/
theorem advance_progression_witness :
    wsC ≠ [] ∧
    ((((advanceRun (some wsC) sidC [3, 4] (create_session (fun _ => none) sidC 0).2).1 = true) ↔
        ([3, 4] : List Nat).length ≤ wsC.length - 1) ∧
     ((advanceRun (some wsC) sidC [3, 4] (create_session (fun _ => none) sidC 0).2).2 sidC).map
        (fun s => s.current_wagon.wagon_id) =
        some (min ([3, 4] : List Nat).length (wsC.length - 1)) ∧
     (∀ (reg : Registry) (s : UserSession) (now : Nat), reg sidC = some s →
        s.current_wagon.wagon_id = wsC.length - 1 →
        advance_wagon reg sidC (some wsC) now = (false, reg))) :=
  ⟨by decide, advance_progression (fun _ => none) sidC 0 wsC (by decide) [3, 4]⟩

/-- C2: for an identity wagon-i-player-k against an existing session,
add_message succeeds exactly when i is the current wagon id, and on a
mismatch it returns None with the registry unchanged. -/
theorem add_message_wagon_gate (reg : Registry) (sid : Str) (s : UserSession)
    (h : reg sid = some s) (i k : Nat) (msg : Message) (now : Nat) :
    ((∃ c, (add_message reg sid (wagonUid i k) msg now).1 = .ok (some c)) ↔
        i = s.current_wagon.wagon_id) ∧
    (i ≠ s.current_wagon.wagon_id →
        add_message reg sid (wagonUid i k) msg now = (.ok none, reg)) := by
  have hparse := parseWagonIdx_wagonUid i k
  by_cases hi : i = s.current_wagon.wagon_id
  · refine ⟨iff_of_true ?_ hi, fun hne => absurd hi hne⟩
    simp only [add_message, h, hparse]
    rw [if_pos (by exact_mod_cast hi)]
    exact ⟨_, rfl⟩
  · have hcast : ¬ ((i : Int) = (s.current_wagon.wagon_id : Int)) := by exact_mod_cast hi
    refine ⟨iff_of_false ?_ hi, fun _ => ?_⟩
    · rintro ⟨c, hc⟩
      simp only [add_message, h, hparse] at hc
      rw [if_neg hcast] at hc
      simp at hc
    · simp only [add_message, h, hparse]
      rw [if_neg hcast]

/-- Witness for C2 on the fresh session and identity wagon-0-player-1. -/
theorem add_message_wagon_gate_witness :
    regFreshC sidC = some sFreshC ∧
    (((∃ c, (add_message regFreshC sidC (wagonUid 0 1) msgC 5).1 = .ok (some c)) ↔
        0 = sFreshC.current_wagon.wagon_id) ∧
     (0 ≠ sFreshC.current_wagon.wagon_id →
        add_message regFreshC sidC (wagonUid 0 1) msgC 5 = (.ok none, regFreshC))) :=
  ⟨rfl, add_message_wagon_gate regFreshC sidC sFreshC rfl 0 1 msgC 5⟩

/-- C10: every failure cause of add_message and get_conversation other than
a parse exception collapses to the same None result: missing session and
wrong wagon for both operations, and a not-yet-created conversation for
get_conversation; in each add_message case the registry is unchanged. -/
theorem failure_signalling_uniform (reg : Registry) (sid uid : Str) (msg : Message) (now : Nat) :
    (reg sid = none →
      add_message reg sid uid msg now = (.ok none, reg) ∧
      get_conversation reg sid uid = .ok none) ∧
    (∀ (s : UserSession) (w : Int), reg sid = some s → parseWagonIdx uid = some w →
      w ≠ (s.current_wagon.wagon_id : Int) →
      add_message reg sid uid msg now = (.ok none, reg) ∧
      get_conversation reg sid uid = .ok none) ∧
    (∀ (s : UserSession) (w : Int), reg sid = some s → parseWagonIdx uid = some w →
      w = (s.current_wagon.wagon_id : Int) →
      s.current_wagon.conversations uid = none →
      get_conversation reg sid uid = .ok none) := by
  refine ⟨?_, ?_, ?_⟩
  · intro h
    exact ⟨by simp only [add_message, h], by simp only [get_conversation, h]⟩
  · intro s w h hp hw
    constructor
    · simp only [add_message, h, hp]
      rw [if_neg hw]
    · simp only [get_conversation, h, hp]
      rw [if_neg hw]
  · intro s w h hp hw hc
    simp only [get_conversation, h, hp]
    rw [if_pos hw, hc]

/-- Witness for C10 at the missing-session cause. -/
theorem failure_signalling_uniform_witness :
    add_message (fun _ => none) sidC "u".data msgC 0 = (.ok none, fun _ => none) ∧
    get_conversation (fun _ => none) sidC "u".data = .ok none :=
  (failure_signalling_uniform (fun _ => none) sidC "u".data msgC 0).1 rfl

/-- Registry after creating a session, chatting once with wagon-0-player-1
and recording one guess: the state advance_wagon is then run against. -/
def reg3C : Registry :=
  update_guessing_progress
    (add_message regFreshC sidC "wagon-0-player-1".data msgC 1).2
    sidC "hint text".data "guess1".data ["thought text".data] 1

/-- C3: the advance succeeds, replaces the wagon and discards its
conversations (the old identity now reads back as None where it previously
held a conversation), but the guessing progress still holds the recorded
guess afterwards: the code assigns the never-read current_guesses attribute
instead of resetting guessing_progress, contradicting its own clean-up
comment and the reset the claim states. -/
theorem advance_retains_guessing_progress :
    (advance_wagon reg3C sidC (some wsC) 2).1 = true ∧
    ((advance_wagon reg3C sidC (some wsC) 2).2 sidC).map
      (fun s => s.guessing_progress.guesses.length) = some 1 ∧
    ((advance_wagon reg3C sidC (some wsC) 2).2 sidC).map
      (fun s => s.current_wagon.wagon_id) = some 1 ∧
    get_conversation (advance_wagon reg3C sidC (some wsC) 2).2 sidC
      "wagon-0-player-1".data = .ok none ∧
    (∃ c, get_conversation reg3C sidC "wagon-0-player-1".data = .ok (some c)) :=
  ⟨rfl, rfl, rfl, rfl, ⟨_, rfl⟩⟩

/-- C4 counterexample: on the two-wagon dataset whose second entry carries
passcode aurum, a successful advance leaves the new WagonProgress passcode
at None rather than the dataset passcode. -/
theorem advance_passcode_cex :
    (advance_wagon regFreshC sidC (some wsC) 1).1 = true ∧
    ((advance_wagon regFreshC sidC (some wsC) 1).2 sidC).map
      (fun s => s.current_wagon.passcode) = some none ∧
    (wsC.get? 1).map (fun w => w.passcode) = some "aurum".data ∧
    ((advance_wagon regFreshC sidC (some wsC) 1).2 sidC).map
      (fun s => s.current_wagon.passcode) ≠ some (some "aurum".data) :=
  ⟨rfl, rfl, rfl, by decide⟩

/-- C4 amended: a successful advance replaces the current wagon by
WagonProgress(wagon_id+1) with every other field at its declared default
(no conversations, flags false, passcode None); the dataset only bounds the
index, and the declared model has no theme field to populate. -/
theorem advance_installs_default_wagon (reg : Registry) (sid : Str) (s : UserSession)
    (ws : List Wagon) (now : Nat) (h : reg sid = some s) (hid : s.session_id = sid)
    (hok : (advance_wagon reg sid (some ws) now).1 = true) :
    (advance_wagon reg sid (some ws) now).2 sid =
      some { s with current_wagon := { wagon_id := s.current_wagon.wagon_id + 1,
                                       conversations := fun _ => none,
                                       completed := false, unlocked := false,
                                       passcode := none },
                    current_guesses := {}, last_active := now } := by
  rw [advance_wagon_eq_of_some reg sid s ws now h] at hok ⊢
  by_cases hc : (((s.current_wagon.wagon_id + 1 : Nat) : Int) > (ws.length : Int) - 1)
  · rw [if_pos hc] at hok
    exact absurd hok (by simp)
  · rw [if_neg hc]
    exact update_session_lookup reg _ now sid hid

/-- Witness for C4 on the fresh session and the two-wagon dataset. -/
theorem advance_installs_default_wagon_witness :
    regFreshC sidC = some sFreshC ∧ sFreshC.session_id = sidC ∧
    (advance_wagon regFreshC sidC (some wsC) 1).1 = true ∧
    (advance_wagon regFreshC sidC (some wsC) 1).2 sidC =
      some { sFreshC with
        current_wagon := { wagon_id := sFreshC.current_wagon.wagon_id + 1,
                           conversations := fun _ => none,
                           completed := false, unlocked := false, passcode := none },
        current_guesses := {}, last_active := 1 } :=
  ⟨rfl, rfl, by decide,
    advance_installs_default_wagon regFreshC sidC sFreshC wsC 1 rfl rfl (by decide)⟩

/-- Four chronological guessing turns used by the C5 counterexample. -/
def entriesC : List RecordedGuess :=
  [{ indication := "i1".data, guessText := "g1".data, thought := "t1".data, now := 1 },
   { indication := "i2".data, guessText := "g2".data, thought := "t2".data, now := 2 },
   { indication := "i3".data, guessText := "g3".data, thought := "t3".data, now := 3 },
   { indication := "i4".data, guessText := "g4".data, thought := "t4".data, now := 4 }]

/-- C5 counterexample: after four recorded guesses the generation
collaborator receives the three earliest guesses g1, g2, g3, not the three
most recent g2, g3, g4 the claim names. -/
theorem generate_window_cex :
    ((recordRun sidC entriesC regFreshC) sidC).map
      (fun s => (generateInputs s.guessing_progress.guesses "gold".data
          s.guessing_progress.indications "cur".data "pw".data).previous_guesses) =
      some ["g1".data, "g2".data, "g3".data] ∧
    (["g1".data, "g2".data, "g3".data] : List Str) ≠ ["g2".data, "g3".data, "g4".data] :=
  ⟨rfl, by decide⟩

/-- C5 amended: the recorded guesses and indications accumulate in
chronological order, and the collaborator inputs are the first three
recorded guesses and the first five recorded indication texts, the oldest
ones, however many turns have accumulated. -/
theorem generate_window_from_recording (reg0 : Registry) (sid : Str) (t0 : Nat)
    (entries : List RecordedGuess) (theme cur pwd : Str) :
    ∃ s', (recordRun sid entries (create_session reg0 sid t0).2) sid = some s' ∧
      s'.guessing_progress.guesses = entries.map (fun e => e.guessText) ∧
      (generateInputs s'.guessing_progress.guesses theme
          s'.guessing_progress.indications cur pwd).previous_guesses =
        (entries.map (fun e => e.guessText)).take 3 ∧
      (generateInputs s'.guessing_progress.guesses theme
          s'.guessing_progress.indications cur pwd).previous_indications =
        (entries.map (fun e => e.indication)).take 5 := by
  have hcreate : (create_session reg0 sid t0).2 sid = some (create_session reg0 sid t0).1 := by
    simp [create_session]
  obtain ⟨s', h', hid', hg', hi'⟩ := recordRun_spec sid entries _ _ hcreate rfl
  have hg0 : (create_session reg0 sid t0).1.guessing_progress.guesses = [] := rfl
  have hi0 : (create_session reg0 sid t0).1.guessing_progress.indications = [] := rfl
  rw [hg0] at hg'
  rw [hi0] at hi'
  simp only [List.map_nil, List.nil_append] at hg' hi'
  refine ⟨s', h', hg', ?_, ?_⟩
  · simp only [generateInputs]
    rw [hg']
  · simp only [generateInputs]
    rw [hi']

/-- C6 counterexample: a successful get at time 100 on a session whose
last_active is 0 returns the session with last_active still 0; the
spec-words lookup that touches the timestamp would store 100 instead. -/
theorem get_session_no_touch_cex :
    (get_session regFreshC sidC).map (fun s => s.last_active) = some 0 ∧
    ((get_session_touch_spec regFreshC sidC 100).2 sidC).map
      (fun s => s.last_active) = some 100 ∧
    (0 : Nat) ≠ 100 :=
  ⟨rfl, rfl, by decide⟩

/-- C6 amended: get_session returns the stored session unmodified and writes
nothing; last_active is bumped by the write path, update_session, and hence
by every operation that persists through it, such as
update_guessing_progress. -/
theorem last_active_bumped_only_on_write (reg : Registry) (sid : Str) (s : UserSession)
    (h : reg sid = some s) (hid : s.session_id = sid) (now : Nat) (ind gss th : Str) :
    get_session reg sid = some s ∧
    update_session reg s now sid = some { s with last_active := now } ∧
    ((update_guessing_progress reg sid ind gss [th] now) sid).map
      (fun x => x.last_active) = some now := by
  refine ⟨h, update_session_lookup reg s now sid hid, ?_⟩
  obtain ⟨s', h', _, _, _, hla⟩ :=
    update_guessing_progress_lookup reg sid s ind gss [th] now h hid
  rw [h', Option.map_some', hla]

/-- Witness for C6 on the fresh session. -/
theorem last_active_bumped_only_on_write_witness :
    regFreshC sidC = some sFreshC ∧
    (get_session regFreshC sidC = some sFreshC ∧
     update_session regFreshC sFreshC 7 sidC = some { sFreshC with last_active := 7 } ∧
     ((update_guessing_progress regFreshC sidC "i".data "g".data ["t".data] 7) sidC).map
       (fun x => x.last_active) = some 7) :=
  ⟨rfl, last_active_bumped_only_on_write regFreshC sidC sFreshC rfl rfl 7
    "i".data "g".data "t".data⟩

/-- C7 counterexample: the fresh session is stale by sweep time 7201 with a
one-hour threshold; get returns it at that very instant, yet the same sweep
removes it, so a get touch does not make a session survive. -/
theorem cleanup_removes_get_touched_cex :
    (get_session regFreshC sidC).isSome = true ∧
    cleanup_old_sessions regFreshC 7201 1 sidC = none :=
  ⟨rfl, rfl⟩

/-- C7 amended: the sweep removes a stored session exactly when now minus
its last_active strictly exceeds 3600 times the hour threshold, and a
session written through update_session within the threshold survives the
same sweep; only writes extend the lifetime. -/
theorem cleanup_threshold (reg : Registry) (now maxAgeHours : Nat) (sid : Str) :
    (cleanup_old_sessions reg now maxAgeHours sid = none ↔
      reg sid = none ∨
        ∃ s, reg sid = some s ∧ 3600 * maxAgeHours < now - s.last_active) ∧
    (∀ (s : UserSession) (t : Nat), now - t ≤ 3600 * maxAgeHours →
      cleanup_old_sessions (update_session reg s t) now maxAgeHours s.session_id =
        some { s with last_active := t }) := by
  constructor
  · simp only [cleanup_old_sessions]
    cases hreg : reg sid with
    | none => simp
    | some s =>
      by_cases hage : 3600 * maxAgeHours < now - s.last_active
      · simp [hage]
      · simp [hage]
  · intro s t ht
    simp only [cleanup_old_sessions, update_session_lookup reg s t s.session_id rfl]
    rw [if_neg (by omega : ¬ 3600 * maxAgeHours < now - t)]

/-- Witness for C7: a session updated 3501 seconds before a sweep with a
one-hour threshold survives it. -/
theorem cleanup_threshold_witness :
    (3601 : Nat) - 100 ≤ 3600 * 1 ∧
    cleanup_old_sessions (update_session (fun _ => none) sFreshC 100) 3601 1
      sFreshC.session_id = some { sFreshC with last_active := 100 } :=
  ⟨by decide,
    (cleanup_threshold (fun _ => none) 3601 1 sFreshC.session_id).2 sFreshC 100 (by decide)⟩

/-- C8 counterexample: with the session present, add_message on the
unparsable identity garbage propagates the IndexError or ValueError from
the index parse instead of returning a typed InvalidIdentity value; the
registry is untouched. -/
theorem add_message_exn_cex :
    (add_message regFreshC sidC "garbage".data msgC 5).1 =
      .error PyErr.valueOrIndexError ∧
    (add_message regFreshC sidC "garbage".data msgC 5).2 = regFreshC :=
  ⟨rfl, rfl⟩

/-- C8 amended: the service itself raises on an unparsable identity, but the
chat route parses the uid first inside its try block and answers with the
typed 400 Invalid UID format gate before any service call, and add_message
never mutates the registry on such an identity. -/
theorem invalid_uid_gated (uid : Str) (hbad : parseWagonIdx uid = none)
    (curId : Nat) (reg : Registry) (sid : Str) (msg : Message) (now : Nat) :
    chatPrelude uid curId = ChatGate.invalidUid ∧
    (add_message reg sid uid msg now).2 = reg := by
  constructor
  · simp only [chatPrelude, hbad]
  · cases hreg : reg sid with
    | none => simp only [add_message, hreg]
    | some s => simp only [add_message, hreg, hbad]

/-- Witness for C8 on the identity garbage. -/
theorem invalid_uid_gated_witness :
    parseWagonIdx "garbage".data = none ∧
    (chatPrelude "garbage".data 0 = ChatGate.invalidUid ∧
     (add_message regFreshC sidC "garbage".data msgC 5).2 = regFreshC) :=
  ⟨by decide, invalid_uid_gated "garbage".data (by decide) 0 regFreshC sidC msgC 5⟩

/-- C9 amended: for a nonempty passcode that does not contain the mask
character, the current indication handed to the guess collaborator contains
no occurrence of the passcode. -/
theorem generate_filters_passcode (gs : List Str) (theme : Str) (inds : List Message)
    (cur pwd : Str) (hp : pwd ≠ []) (hstar : '*' ∉ pwd) :
    ¬ occursIn pwd ((generateInputs gs theme inds cur pwd).current_indication) := by
  have hrw : (generateInputs gs theme inds cur pwd).current_indication =
      replaceAux pwd maskStr cur := by
    simp only [generateInputs, filter_password, pyReplace, if_neg hp]
  rw [hrw]
  exact replaceAux_no_occurrence pwd hp hstar cur.length cur le_rfl

/-- Witness for C9 with passcode gold inside the indication. -/
theorem generate_filters_passcode_witness :
    ("gold".data : Str) ≠ [] ∧ '*' ∉ ("gold".data : Str) ∧
    ¬ occursIn "gold".data
      ((generateInputs [] "theme".data [] "the gold word".data "gold".data).current_indication) :=
  ⟨by decide, by decide,
    generate_filters_passcode [] "theme".data [] "the gold word".data "gold".data
      (by decide) (by decide)⟩

/-- C9 counterexample: with the one-character passcode consisting of the
mask character, the replacement reintroduces the passcode, so the filtered
indication sent to the collaborator still contains it. -/
theorem generate_filters_passcode_cex :
    occursIn ['*'] ((generateInputs [] ['t'] [] ['*'] ['*']).current_indication) := by
  have h1 : (generateInputs [] ['t'] [] ['*'] ['*']).current_indication =
      replaceAux ['*'] maskStr ['*'] := by
    simp only [generateInputs, filter_password, pyReplace]
    rw [if_neg (by decide : ¬ ((['*'] : Str) = []))]
  have h3 : replaceAux ['*'] maskStr ([] : Str) = [] := by
    rw [replaceAux]
  have h2 : replaceAux ['*'] maskStr ['*'] = maskStr := by
    rw [replaceAux]
    rw [if_pos (by decide : List.isPrefixOf ['*'] ['*'] = true)]
    simp [h3]
  refine ⟨0, ?_⟩
  rw [h1, h2]
  decide

end TrainBackend
